import Mathlib

/-!
Shallow embedding, in Lean 4, of the property-handler core of the
`parcel-css` minification engine: the `PropertyHandlerContext` from
`src/context.rs`, the side-handler family generated by the `side_handler!`
macro in `src/properties/margin_padding.rs`, the `@custom-media` lookup
construction in `src/stylesheet.rs`, and the `@property` rule validation
in `src/rules/property.rs`.

Conventions of the embedding:
* `Vec<T>` becomes `List T`, with `push` modelled as appending at the end.
* `&mut` state threading becomes explicit state passing: each operation
  returns the updated state together with its other results.
* Types defined in crate modules that are not part of the verified slice
  (browser matrices, supports conditions, parsed length values, raw token
  streams, selector components, media queries) are abstracted into type
  parameters; only the structure the handler code actually inspects is
  modelled concretely.
-/

/-- Compatibility features consulted by the verified slice. The crate has a
larger fixed enumeration in `compat.rs` (not part of the source slice);
only the features named by the handlers and the stylesheet minifier are
modelled. -/
inductive Feature where
  | logicalMargin
  | logicalPadding
  | logicalInset
  | customMediaQueries
deriving DecidableEq, Repr

/-- `DeclarationContext` from `src/context.rs` (lines 19-25). -/
inductive DeclarationContext where
  | none
  | styleRule
  | keyframes
  | styleAttribute
deriving DecidableEq, Repr

/-- `SupportsEntry` from `src/context.rs` (lines 12-17): a supports
condition together with the normal and important declarations collected
under it. `C` abstracts `SupportsCondition`, `P` abstracts `Property`. -/
structure SupportsEntry (C P : Type) where
  condition : C
  declarations : List P
  important_declarations : List P
deriving DecidableEq, Repr

/-- `PropertyHandlerContext` from `src/context.rs` (lines 27-35).
`B` abstracts the `Browsers` target matrix, `C` the supports condition
type and `P` the property type. -/
structure PropertyHandlerContext (B C P : Type) where
  targets : Option B
  is_important : Bool
  supports : List (SupportsEntry C P)
  ltr : List P
  rtl : List P
  context : DeclarationContext
deriving DecidableEq, Repr

/-- `PropertyHandlerContext::new` from `src/context.rs` (lines 38-47). -/
def PropertyHandlerContext.new (targets : Option B) : PropertyHandlerContext B C P :=
  { targets := targets
    is_important := false
    supports := []
    ltr := []
    rtl := []
    context := DeclarationContext.none }

/-- `PropertyHandlerContext::is_supported` from `src/context.rs`
(lines 49-61). `compat` is the compatibility oracle
`Feature::is_compatible` from `compat.rs`, which is outside the source
slice and therefore passed in as a parameter. -/
def PropertyHandlerContext.is_supported (compat : Feature → B → Bool)
    (ctx : PropertyHandlerContext B C P) (feature : Feature) : Bool :=
  if ctx.context = DeclarationContext.styleAttribute then
    true
  else
    match ctx.targets with
    | some targets => compat feature targets
    | none => true

/-- `PropertyHandlerContext::add_logical_rule` from `src/context.rs`
(lines 63-66). -/
def PropertyHandlerContext.add_logical_rule (ctx : PropertyHandlerContext B C P)
    (ltr rtl : P) : PropertyHandlerContext B C P :=
  { ctx with ltr := ctx.ltr ++ [ltr], rtl := ctx.rtl ++ [rtl] }

/-- Appending a property to the important or normal list of a
`SupportsEntry`, as done by both branches inside
`add_conditional_property` (`src/context.rs`, lines 110-128). -/
def addToSupportsEntry (is_important : Bool) (property : P)
    (entry : SupportsEntry C P) : SupportsEntry C P :=
  if is_important then
    { entry with important_declarations := entry.important_declarations ++ [property] }
  else
    { entry with declarations := entry.declarations ++ [property] }

/-- The `iter_mut().find(...)`-then-mutate-else-`push` shape of
`add_conditional_property` (`src/context.rs`, lines 110-129): mutate the
first entry with an equal condition, or append a fresh entry at the end. -/
def insertConditional [DecidableEq C] (is_important : Bool) (condition : C)
    (property : P) : List (SupportsEntry C P) → List (SupportsEntry C P)
  | [] =>
    [{ condition := condition
       declarations := if is_important then [] else [property]
       important_declarations := if is_important then [property] else [] }]
  | entry :: rest =>
    if condition = entry.condition then
      addToSupportsEntry is_important property entry :: rest
    else
      entry :: insertConditional is_important condition property rest

/-- `PropertyHandlerContext::add_conditional_property` from
`src/context.rs` (lines 105-130). -/
def PropertyHandlerContext.add_conditional_property [DecidableEq C]
    (ctx : PropertyHandlerContext B C P) (condition : C) (property : P) :
    PropertyHandlerContext B C P :=
  if ctx.context ≠ DeclarationContext.styleRule then
    ctx
  else
    { ctx with supports := insertConditional ctx.is_important condition property ctx.supports }

/-- `UnparsedProperty` from `properties/custom.rs` (outside the source
slice): a property id together with an opaque raw token stream. `Pid`
abstracts `PropertyId`, `W` abstracts `TokenList`. -/
structure UnparsedProperty (Pid W : Type) where
  property_id : Pid
  value : W
deriving DecidableEq, Repr

/-- The slice of the crate-wide `Property` enum that
`add_unparsed_fallbacks` constructs: an `Unparsed` variant around an
`UnparsedProperty`, with all other variants abstracted. -/
inductive CtxProperty (Pid W : Type) where
  | unparsed (u : UnparsedProperty Pid W)
  | parsed (n : Nat)
deriving DecidableEq, Repr

/-- `PropertyHandlerContext::add_unparsed_fallbacks` from
`src/context.rs` (lines 132-149). `get_fallbacks` is the value fallback
producer `TokenList::get_fallbacks` (outside the source slice; per the
spec it yields an ordered list of (condition, replacement-value) pairs
and may rewrite the primary value in place, which the embedding models by
returning the fallback list together with the new value). The function
returns the updated context and the possibly rewritten property. -/
def PropertyHandlerContext.add_unparsed_fallbacks [DecidableEq C]
    (get_fallbacks : W → B → List (C × W) × W)
    (ctx : PropertyHandlerContext B C (CtxProperty Pid W))
    (unparsed : UnparsedProperty Pid W) :
    PropertyHandlerContext B C (CtxProperty Pid W) × UnparsedProperty Pid W :=
  if ctx.context ≠ DeclarationContext.styleRule ∧
      ctx.context ≠ DeclarationContext.styleAttribute then
    (ctx, unparsed)
  else
    match ctx.targets with
    | some targets =>
      let fallbacks := (get_fallbacks unparsed.value targets).1
      let newValue := (get_fallbacks unparsed.value targets).2
      let ctx := fallbacks.foldl
        (fun c cf =>
          c.add_conditional_property cf.1
            (CtxProperty.unparsed { property_id := unparsed.property_id, value := cf.2 }))
        ctx
      (ctx, { unparsed with value := newValue })
    | none => (ctx, unparsed)

/-- Direction of a `:dir(...)` pseudo class (`selector.rs`, outside the
source slice). -/
inductive Direction where
  | ltr
  | rtl
deriving DecidableEq, Repr

/-- A component of a parsed selector. The `parcel_selectors` crate is
outside the source slice; the verified code only ever appends a
`NonTSPseudoClass(PseudoClass::Dir(..))` component, so that single shape
is modelled and every other component is abstracted as `raw`. -/
inductive SelComponent (A : Type) where
  | dir (d : Direction)
  | raw (a : A)
deriving DecidableEq, Repr

/-- A selector is its list of components; `Selector::append` pushes a
component at the end. -/
abbrev Selector (A : Type) : Type := List (SelComponent A)

/-- Vendor prefix annotation on a style rule (`vendor_prefix.rs`,
outside the source slice); the verified code only uses `None`. -/
inductive VendorPrefix where
  | none
  | webkit
  | moz
  | ms
  | o
deriving DecidableEq, Repr

/-- Source location of a rule (`rules/mod.rs`, outside the source slice;
per the spec it carries a source index and a line/column position). -/
structure Location where
  source_index : Nat
  line : Nat
  column : Nat
deriving DecidableEq, Repr

/-- `DeclarationBlock` from `declaration.rs` (outside the source slice;
per the spec it is an ordered pair of normal and important declaration
sequences). -/
structure DeclarationBlock (P : Type) where
  declarations : List P
  important_declarations : List P
deriving DecidableEq, Repr

/-- `@custom-media` rule payload (`rules/custom_media.rs`, outside the
source slice): a name together with a media query, abstracted as `MQ`. -/
structure CustomMediaRule (MQ : Type) where
  name : String
  query : MQ
deriving DecidableEq, Repr

/-- The slice of the crate-wide `CssRule` enum used by the verified code:
`Style` rules (with their nested rule lists), `Supports` rules,
`CustomMedia` rules, and an abstract remainder. `A` abstracts selector
components, `MQ` media queries, `P` properties and `C` supports
conditions. -/
inductive CssRule (A MQ P C : Type) where
  | style (selectors : List (Selector A)) (vendorPrefix : VendorPrefix)
      (declarations : DeclarationBlock P) (rules : List (CssRule A MQ P C))
      (loc : Location)
  | supports (condition : C) (rules : List (CssRule A MQ P C)) (loc : Location)
  | customMedia (rule : CustomMediaRule MQ)
  | ignored
  | other (n : Nat)

/-- `StyleRule` from `rules/style.rs` (outside the source slice; its
fields are exactly the ones the verified code reads and writes). -/
structure StyleRule (A MQ P C : Type) where
  selectors : List (Selector A)
  vendorPrefix : VendorPrefix
  declarations : DeclarationBlock P
  rules : List (CssRule A MQ P C)
  loc : Location

/-- `PropertyHandlerContext::get_logical_rules` from `src/context.rs`
(lines 68-103): drain the LTR buffer into a synthesized `:dir(ltr)` style
rule if non-empty, then the RTL buffer into a `:dir(rtl)` rule if
non-empty. Returns the synthesized rules and the updated context. -/
def PropertyHandlerContext.get_logical_rules
    (ctx : PropertyHandlerContext B C P) (style_rule : StyleRule A MQ P C) :
    List (CssRule A MQ P C) × PropertyHandlerContext B C P :=
  let mkRule (d : Direction) (decls : List P) : CssRule A MQ P C :=
    CssRule.style
      (style_rule.selectors.map (fun sel => sel ++ [SelComponent.dir d]))
      VendorPrefix.none
      { declarations := decls, important_declarations := [] }
      []
      style_rule.loc
  let step1 :=
    if !ctx.ltr.isEmpty then
      ([mkRule Direction.ltr ctx.ltr], { ctx with ltr := [] })
    else
      (([] : List (CssRule A MQ P C)), ctx)
  let dest := step1.1
  let ctx := step1.2
  if !ctx.rtl.isEmpty then
    (dest ++ [mkRule Direction.rtl ctx.rtl], { ctx with rtl := [] })
  else
    (dest, ctx)

/-- `PropertyHandlerContext::get_supports_rules` from `src/context.rs`
(lines 151-176): drain the supports buffer; each entry becomes an
`@supports` rule wrapping a clone of the originating style rule that
carries only the entry's declarations. -/
def PropertyHandlerContext.get_supports_rules
    (ctx : PropertyHandlerContext B C P) (style_rule : StyleRule A MQ P C) :
    List (CssRule A MQ P C) × PropertyHandlerContext B C P :=
  if ctx.supports.isEmpty then
    ([], ctx)
  else
    let dest := ctx.supports.map (fun entry =>
      CssRule.supports entry.condition
        [CssRule.style style_rule.selectors VendorPrefix.none
          { declarations := entry.declarations
            important_declarations := entry.important_declarations }
          []
          style_rule.loc]
        style_rule.loc)
    (dest, { ctx with supports := [] })

/-- Parser options (`parser.rs`, outside the source slice; per the spec
they record whether CSS modules, nesting and custom media are enabled). -/
structure ParserOptions where
  custom_media : Bool
  css_modules : Bool
  nesting : Bool
deriving DecidableEq, Repr

/-- `MinifyOptions` from `src/stylesheet.rs` (lines 26-30). `B` abstracts
the `Browsers` matrix; the `unused_symbols` set is modelled as a list. -/
structure MinifyOptions (B : Type) where
  targets : Option B
  unused_symbols : List String
deriving DecidableEq, Repr

/-- `HashMap::insert` on a map modelled as an association list: replace
the binding of an existing key, otherwise add a new binding. -/
def hashInsert (m : List (String × CustomMediaRule MQ)) (key : String)
    (rule : CustomMediaRule MQ) : List (String × CustomMediaRule MQ) :=
  if m.any (fun p => p.1 = key) then
    m.map (fun p => if p.1 = key then (key, rule) else p)
  else
    m ++ [(key, rule)]

/-- The `@custom-media` pre-scan of `StyleSheet::minify` from
`src/stylesheet.rs` (lines 81-94): build the name-to-rule lookup table
only when the parser options enable custom media, targets are configured,
and the `CustomMediaQueries` feature is not compatible with them;
otherwise the lookup is `none`. `compat` is the oracle
`Feature::is_compatible`. -/
def buildCustomMediaLookup (compat : Feature → B → Bool)
    (popts : ParserOptions) (mopts : MinifyOptions B)
    (rules : List (CssRule A MQ P C)) :
    Option (List (String × CustomMediaRule MQ)) :=
  match mopts.targets with
  | some targets =>
    if popts.custom_media && !compat Feature.customMediaQueries targets then
      some (rules.foldl
        (fun m rule =>
          match rule with
          | CssRule.customMedia cm => hashInsert m cm.name cm
          | _ => m)
        [])
    else
      none
  | none => none

/-- `SyntaxString` from `values/syntax.rs` (outside the source slice): a
`@property` syntax definition, which is either the universal definition
`"*"` or a non-universal component definition, abstracted by an index. -/
inductive SyntaxString where
  | universal
  | components (n : Nat)
deriving DecidableEq, Repr

/-- Parse errors produced by the verified slice of
`rules/property.rs`; other parser errors are abstracted. -/
inductive CssParserError where
  | atRuleBodyInvalid
  | invalidDeclaration
  | unexpectedToken
  | other (n : Nat)
deriving DecidableEq, Repr

/-- `PropertyRule` from `src/rules/property.rs` (lines 14-21). `Cmp`
abstracts `ParsedComponent`; the dashed identifier name is a string. -/
structure PropertyRule (Cmp : Type) where
  name : String
  syn : SyntaxString
  inherits : Bool
  initial_value : Option Cmp
  loc : Location
deriving DecidableEq, Repr

/-- The accumulator of `PropertyRuleDeclarationParser` from
`src/rules/property.rs` (lines 122-126), as it stands after the
declaration loop: the last `syntax`, `inherits` and `initial-value`
declarations seen, if any. `Raw` abstracts the buffered raw value
string. -/
structure PropertyRuleDeclState (Raw : Type) where
  syn : Option SyntaxString
  inherits : Option Bool
  initial_value : Option Raw
deriving DecidableEq, Repr

/-- One declaration inside a `@property` body as classified by
`PropertyRuleDeclarationParser::parse_value` (`src/rules/property.rs`,
lines 132-165): a valid `syntax`/`inherits`/`initial-value` declaration,
an `inherits` declaration whose value is not `true`/`false`, or any
declaration with an unrecognized name. -/
inductive PropertyDecl (Raw : Type) where
  | synDecl (s : SyntaxString)
  | inheritsDecl (b : Bool)
  | inheritsInvalid
  | initialValueDecl (raw : Raw)
  | unknownDecl
deriving DecidableEq, Repr

/-- The declaration loop of `PropertyRule::parse`
(`src/rules/property.rs`, lines 35-41) over the body's declarations:
each valid declaration stores into its slot (later ones overwrite), and
the first erroneous declaration aborts with its error. -/
def runPropertyDecls : List (PropertyDecl Raw) → PropertyRuleDeclState Raw →
    Except CssParserError (PropertyRuleDeclState Raw)
  | [], st => Except.ok st
  | PropertyDecl.synDecl s :: rest, st =>
    runPropertyDecls rest { st with syn := some s }
  | PropertyDecl.inheritsDecl b :: rest, st =>
    runPropertyDecls rest { st with inherits := some b }
  | PropertyDecl.inheritsInvalid :: _, _ =>
    Except.error CssParserError.unexpectedToken
  | PropertyDecl.initialValueDecl raw :: rest, st =>
    runPropertyDecls rest { st with initial_value := some raw }
  | PropertyDecl.unknownDecl :: _, _ =>
    Except.error CssParserError.invalidDeclaration

/-- The validation tail of `PropertyRule::parse` from
`src/rules/property.rs` (lines 43-75): `syntax` and `inherits` are
required; `initial-value` is required unless the syntax is universal and
is parsed against the declared syntax when present. `parse_value` is
`SyntaxString::parse_value` (outside the source slice). -/
def PropertyRule.parseFromState
    (parse_value : SyntaxString → Raw → Except CssParserError Cmp)
    (name : String) (loc : Location) (parser : PropertyRuleDeclState Raw) :
    Except CssParserError (PropertyRule Cmp) :=
  match parser.syn with
  | none => Except.error CssParserError.atRuleBodyInvalid
  | some syn =>
    match parser.inherits with
    | none => Except.error CssParserError.atRuleBodyInvalid
    | some inherits =>
      match syn, parser.initial_value with
      | SyntaxString.universal, none =>
        Except.ok { name := name, syn := SyntaxString.universal, inherits := inherits,
                    initial_value := none, loc := loc }
      | SyntaxString.universal, some raw =>
        (parse_value SyntaxString.universal raw).map (fun c =>
          { name := name, syn := SyntaxString.universal, inherits := inherits,
            initial_value := some c, loc := loc })
      | _, none => Except.error CssParserError.atRuleBodyInvalid
      | s, some raw =>
        (parse_value s raw).map (fun c =>
          { name := name, syn := s, inherits := inherits,
            initial_value := some c, loc := loc })

/-- `PropertyRule::parse` from `src/rules/property.rs` (lines 24-75),
end to end on a classified body: run the declaration loop from the empty
accumulator, then validate. -/
def PropertyRule.parse
    (parse_value : SyntaxString → Raw → Except CssParserError Cmp)
    (name : String) (loc : Location) (body : List (PropertyDecl Raw)) :
    Except CssParserError (PropertyRule Cmp) :=
  match runPropertyDecls body { syn := none, inherits := none, initial_value := none } with
  | Except.error e => Except.error e
  | Except.ok st => PropertyRule.parseFromState parse_value name loc st

/-- `PropertyCategory` from `logical.rs` (outside the source slice; per
the spec it is the two-element set used to detect category transitions).
Its `Default` is `Physical`; the choice is unobservable because a flush
with `has_any = false` is a no-op. -/
inductive PropertyCategory where
  | physical
  | logical
deriving DecidableEq, Repr

/-- The family-generic slice of `PropertyId` matched by the `Unparsed`
arm of the `side_handler!` macro (`src/properties/margin_padding.rs`,
line 81): the eleven ids of one side family, plus `other` standing for
every id outside the family (for which the match guard fails). -/
inductive SidePropertyId where
  | top
  | bottom
  | left
  | right
  | blockStart
  | blockEnd
  | inlineStart
  | inlineEnd
  | shorthand
  | blockShorthand
  | inlineShorthand
  | other
deriving DecidableEq, Repr

/-- An `Unparsed` property restricted to the family-generic id type. -/
structure UnparsedSideProperty (W : Type) where
  property_id : SidePropertyId
  value : W
deriving DecidableEq, Repr

/-- The family-generic slice of the `Property` enum handled by one
instance of the `side_handler!` macro: four physical longhands, four
logical longhands, the four-sided shorthand (component order top, right,
bottom, left, as built by `Rect::new` in the flush), the two-axis
shorthands (component order start, end) and `Unparsed`; `other` stands
for every property outside the family. `V` abstracts
`LengthPercentageOrAuto`, `W` abstracts the raw token stream. -/
inductive SideProperty (V W : Type) where
  | top (v : V)
  | bottom (v : V)
  | left (v : V)
  | right (v : V)
  | blockStart (v : V)
  | blockEnd (v : V)
  | inlineStart (v : V)
  | inlineEnd (v : V)
  | shorthand (rect : V × V × V × V)
  | blockShorthand (size : V × V)
  | inlineShorthand (size : V × V)
  | unparsed (u : UnparsedSideProperty W)
  | other
deriving DecidableEq, Repr

/-- The accumulator state generated by the `side_handler!` macro
(`src/properties/margin_padding.rs`, lines 11-23). -/
structure SideHandlerState (V W : Type) where
  top : Option V
  bottom : Option V
  left : Option V
  right : Option V
  block_start : Option (SideProperty V W)
  block_end : Option (SideProperty V W)
  inline_start : Option (SideProperty V W)
  inline_end : Option (SideProperty V W)
  has_any : Bool
  category : PropertyCategory
deriving DecidableEq, Repr

/-- `Default::default()` for the handler state (all slots empty,
`has_any = false`, category `Physical`). -/
def SideHandlerState.initial : SideHandlerState V W :=
  { top := none, bottom := none, left := none, right := none
    block_start := none, block_end := none, inline_start := none, inline_end := none
    has_any := false, category := PropertyCategory.physical }

/-- The per-instance parameters of the `side_handler!` macro: the
`$logical_shorthand` literal and the optional compatibility `$feature`. -/
structure SideConfig where
  logical_shorthand : Bool
  feature : Option Feature
deriving DecidableEq, Repr

/-- `MarginHandler` instantiation (`src/properties/margin_padding.rs`,
lines 222-237). -/
def MarginHandler.config : SideConfig :=
  { logical_shorthand := false, feature := some Feature.logicalMargin }

/-- `PaddingHandler` instantiation (lines 239-254). -/
def PaddingHandler.config : SideConfig :=
  { logical_shorthand := false, feature := some Feature.logicalPadding }

/-- `ScrollMarginHandler` instantiation (lines 256-270): no feature. -/
def ScrollMarginHandler.config : SideConfig :=
  { logical_shorthand := false, feature := none }

/-- `ScrollPaddingHandler` instantiation (lines 272-286): no feature. -/
def ScrollPaddingHandler.config : SideConfig :=
  { logical_shorthand := false, feature := none }

/-- `InsetHandler` instantiation (lines 288-303):
`logical_shorthand = true`. -/
def InsetHandler.config : SideConfig :=
  { logical_shorthand := true, feature := some Feature.logicalInset }

/-- The context type as seen by a side handler: properties are the
family-generic `SideProperty`. -/
abbrev SideContext (B C V W : Type) := PropertyHandlerContext B C (SideProperty V W)

/-- `let logical_supported = true $(&& context.is_supported(Feature::$feature))?`
(`src/properties/margin_padding.rs`, line 120): `true` when the instance
has no feature, otherwise the context's answer for it. -/
def logicalSupported (cfg : SideConfig) (compat : Feature → B → Bool)
    (ctx : SideContext B C V W) : Bool :=
  match cfg.feature with
  | some f => ctx.is_supported compat f
  | none => true

/-- The physical-slot part of the flush
(`src/properties/margin_padding.rs`, lines 122-141): with all four slots
present and `(!logical_shorthand || logical_supported)`, a single
four-sided shorthand `(top, right, bottom, left)`; otherwise each present
slot as a longhand, in the code's order top, bottom, left, right. -/
def flushPhysical (logical_shorthand ls : Bool) (top bottom left right : Option V) :
    List (SideProperty V W) :=
  match top, bottom, left, right with
  | some t, some b, some l, some r =>
    if !logical_shorthand || ls then
      [SideProperty.shorthand (t, r, b, l)]
    else
      [SideProperty.top t, SideProperty.bottom b, SideProperty.left l, SideProperty.right r]
  | t, b, l, r =>
    (t.map SideProperty.top).toList ++ (b.map SideProperty.bottom).toList ++
      (l.map SideProperty.left).toList ++ (r.map SideProperty.right).toList

/-- The block-axis part of the flush
(`src/properties/margin_padding.rs`, lines 179-184): when logical is
supported, the `logical_side!` macro (lines 148-163) folds two typed
longhands into the block shorthand or emits each present slot verbatim;
when not, the `prop!` macro (lines 165-177) rewrites block-start to top
and block-end to bottom, swapping the property id of `Unparsed` values
and dropping anything else. -/
def flushBlock (ls : Bool) (block_start block_end : Option (SideProperty V W)) :
    List (SideProperty V W) :=
  if ls then
    match block_start, block_end with
    | some (SideProperty.blockStart s), some (SideProperty.blockEnd e) =>
      [SideProperty.blockShorthand (s, e)]
    | bs, be => bs.toList ++ be.toList
  else
    (match block_start with
     | some (SideProperty.blockStart v) => [SideProperty.top v]
     | some (SideProperty.unparsed u) =>
       [SideProperty.unparsed { u with property_id := SidePropertyId.top }]
     | _ => []) ++
    (match block_end with
     | some (SideProperty.blockEnd v) => [SideProperty.bottom v]
     | some (SideProperty.unparsed u) =>
       [SideProperty.unparsed { u with property_id := SidePropertyId.bottom }]
     | _ => [])

/-- The inline-axis part of the flush
(`src/properties/margin_padding.rs`, lines 186-216), returning the
declarations pushed to `dest` together with the (ltr, rtl) pairs passed
to `context.add_logical_rule`, in call order: supported logical emits the
inline shorthand or each slot verbatim; unsupported with both typed slots
equal emits left/right via `prop!`; otherwise the `logical_prop!` macro
(lines 193-211) defers each present slot to a logical rule pair,
inline-start as (left, right) and inline-end as (right, left). -/
def flushInline [DecidableEq V] (ls : Bool)
    (inline_start inline_end : Option (SideProperty V W)) :
    List (SideProperty V W) × List (SideProperty V W × SideProperty V W) :=
  if ls then
    (match inline_start, inline_end with
     | some (SideProperty.inlineStart s), some (SideProperty.inlineEnd e) =>
       [SideProperty.inlineShorthand (s, e)]
     | is', ie' => is'.toList ++ ie'.toList,
     [])
  else if inline_start.isSome || inline_end.isSome then
    if (match inline_start, inline_end with
        | some (SideProperty.inlineStart s), some (SideProperty.inlineEnd e) => s == e
        | _, _ => false) then
      ((match inline_start with
        | some (SideProperty.inlineStart v) => [SideProperty.left v]
        | some (SideProperty.unparsed u) =>
          [SideProperty.unparsed { u with property_id := SidePropertyId.left }]
        | _ => []) ++
       (match inline_end with
        | some (SideProperty.inlineEnd v) => [SideProperty.right v]
        | some (SideProperty.unparsed u) =>
          [SideProperty.unparsed { u with property_id := SidePropertyId.right }]
        | _ => []),
       [])
    else
      ([],
       (match inline_start with
        | some (SideProperty.inlineStart v) =>
          [(SideProperty.left v, SideProperty.right v)]
        | some (SideProperty.unparsed u) =>
          [(SideProperty.unparsed { u with property_id := SidePropertyId.left },
            SideProperty.unparsed { u with property_id := SidePropertyId.right })]
        | _ => []) ++
       (match inline_end with
        | some (SideProperty.inlineEnd v) =>
          [(SideProperty.right v, SideProperty.left v)]
        | some (SideProperty.unparsed u) =>
          [(SideProperty.unparsed { u with property_id := SidePropertyId.right },
            SideProperty.unparsed { u with property_id := SidePropertyId.left })]
        | _ => []))
  else
    ([], [])

/-- `flush` from the `side_handler!` macro
(`src/properties/margin_padding.rs`, lines 107-217): a no-op when
`has_any` is false; otherwise take all eight slots, clear `has_any`, and
append the physical, block-axis and inline-axis outputs to `dest` in that
order, recording the inline logical-rule pairs in the context. The
category field is not reset. -/
def flush [DecidableEq V] (cfg : SideConfig) (compat : Feature → B → Bool)
    (s : SideHandlerState V W) (dest : List (SideProperty V W))
    (ctx : SideContext B C V W) :
    SideHandlerState V W × List (SideProperty V W) × SideContext B C V W :=
  if s.has_any = false then
    (s, dest, ctx)
  else
    let ls := logicalSupported cfg compat ctx
    let physOut : List (SideProperty V W) :=
      flushPhysical cfg.logical_shorthand ls s.top s.bottom s.left s.right
    let blockOut := flushBlock ls s.block_start s.block_end
    let inlineOut := flushInline ls s.inline_start s.inline_end
    let s' := { s with
      top := none, bottom := none, left := none, right := none
      block_start := none, block_end := none, inline_start := none, inline_end := none
      has_any := false }
    let ctx' := inlineOut.2.foldl (fun c pr => c.add_logical_rule pr.1 pr.2) ctx
    (s', dest ++ physOut ++ blockOut ++ inlineOut.1, ctx')

/-- The `property!` macro (`src/properties/margin_padding.rs`,
lines 29-38) for the `Physical` category: flush on a category
transition, then store through `upd` and set category and `has_any`. -/
def storePhysicalSlot [DecidableEq V] (cfg : SideConfig) (compat : Feature → B → Bool)
    (upd : SideHandlerState V W → SideHandlerState V W)
    (s : SideHandlerState V W) (dest : List (SideProperty V W))
    (ctx : SideContext B C V W) :
    SideHandlerState V W × List (SideProperty V W) × SideContext B C V W :=
  let r := if s.category ≠ PropertyCategory.physical then flush cfg compat s dest ctx
           else (s, dest, ctx)
  ({ upd r.1 with category := PropertyCategory.physical, has_any := true }, r.2.1, r.2.2)

/-- The `logical_property!` macro (`src/properties/margin_padding.rs`,
lines 40-50): flush on a category transition, then store through `upd`
and set category and `has_any`. -/
def storeLogicalSlot [DecidableEq V] (cfg : SideConfig) (compat : Feature → B → Bool)
    (upd : SideHandlerState V W → SideHandlerState V W)
    (s : SideHandlerState V W) (dest : List (SideProperty V W))
    (ctx : SideContext B C V W) :
    SideHandlerState V W × List (SideProperty V W) × SideContext B C V W :=
  let r := if s.category ≠ PropertyCategory.logical then flush cfg compat s dest ctx
           else (s, dest, ctx)
  ({ upd r.1 with category := PropertyCategory.logical, has_any := true }, r.2.1, r.2.2)

/-- `handle_property` from the `side_handler!` macro
(`src/properties/margin_padding.rs`, lines 26-99). Returns the accepted
flag together with the updated state, destination list and context. -/
def handle_property [DecidableEq V] (cfg : SideConfig) (compat : Feature → B → Bool)
    (property : SideProperty V W) (s : SideHandlerState V W)
    (dest : List (SideProperty V W)) (ctx : SideContext B C V W) :
    Bool × SideHandlerState V W × List (SideProperty V W) × SideContext B C V W :=
  match property with
  | SideProperty.top v =>
    (true, storePhysicalSlot cfg compat (fun st => { st with top := some v }) s dest ctx)
  | SideProperty.bottom v =>
    (true, storePhysicalSlot cfg compat (fun st => { st with bottom := some v }) s dest ctx)
  | SideProperty.left v =>
    (true, storePhysicalSlot cfg compat (fun st => { st with left := some v }) s dest ctx)
  | SideProperty.right v =>
    (true, storePhysicalSlot cfg compat (fun st => { st with right := some v }) s dest ctx)
  | SideProperty.blockStart v =>
    (true, storeLogicalSlot cfg compat
      (fun st => { st with block_start := some (SideProperty.blockStart v) }) s dest ctx)
  | SideProperty.blockEnd v =>
    (true, storeLogicalSlot cfg compat
      (fun st => { st with block_end := some (SideProperty.blockEnd v) }) s dest ctx)
  | SideProperty.inlineStart v =>
    (true, storeLogicalSlot cfg compat
      (fun st => { st with inline_start := some (SideProperty.inlineStart v) }) s dest ctx)
  | SideProperty.inlineEnd v =>
    (true, storeLogicalSlot cfg compat
      (fun st => { st with inline_end := some (SideProperty.inlineEnd v) }) s dest ctx)
  | SideProperty.blockShorthand (a, b) =>
    let r1 := storeLogicalSlot cfg compat
      (fun st => { st with block_start := some (SideProperty.blockStart a) }) s dest ctx
    (true, storeLogicalSlot cfg compat
      (fun st => { st with block_end := some (SideProperty.blockEnd b) }) r1.1 r1.2.1 r1.2.2)
  | SideProperty.inlineShorthand (a, b) =>
    let r1 := storeLogicalSlot cfg compat
      (fun st => { st with inline_start := some (SideProperty.inlineStart a) }) s dest ctx
    (true, storeLogicalSlot cfg compat
      (fun st => { st with inline_end := some (SideProperty.inlineEnd b) }) r1.1 r1.2.1 r1.2.2)
  | SideProperty.shorthand (t, r, b, l) =>
    (true,
     { s with
       top := some t, right := some r, bottom := some b, left := some l
       block_start := none, block_end := none, inline_start := none, inline_end := none
       has_any := true },
     dest, ctx)
  | SideProperty.unparsed u =>
    match u.property_id with
    | SidePropertyId.blockStart =>
      (true, storeLogicalSlot cfg compat
        (fun st => { st with block_start := some (SideProperty.unparsed u) }) s dest ctx)
    | SidePropertyId.blockEnd =>
      (true, storeLogicalSlot cfg compat
        (fun st => { st with block_end := some (SideProperty.unparsed u) }) s dest ctx)
    | SidePropertyId.inlineStart =>
      (true, storeLogicalSlot cfg compat
        (fun st => { st with inline_start := some (SideProperty.unparsed u) }) s dest ctx)
    | SidePropertyId.inlineEnd =>
      (true, storeLogicalSlot cfg compat
        (fun st => { st with inline_end := some (SideProperty.unparsed u) }) s dest ctx)
    | SidePropertyId.other => (false, s, dest, ctx)
    | _ =>
      let r := flush cfg compat s dest ctx
      (true, r.1, r.2.1 ++ [SideProperty.unparsed u], r.2.2)
  | SideProperty.other => (false, s, dest, ctx)

/-- `finalize` from the `side_handler!` macro
(`src/properties/margin_padding.rs`, lines 101-103): a final flush. -/
def finalize [DecidableEq V] (cfg : SideConfig) (compat : Feature → B → Bool)
    (s : SideHandlerState V W) (dest : List (SideProperty V W))
    (ctx : SideContext B C V W) :
    SideHandlerState V W × List (SideProperty V W) × SideContext B C V W :=
  flush cfg compat s dest ctx

/-- Driving one declaration block through the handler: feed each
declaration to `handle_property` in input order (as the declaration
dispatcher does), then `finalize`. -/
def handle_list [DecidableEq V] (cfg : SideConfig) (compat : Feature → B → Bool) :
    List (SideProperty V W) → SideHandlerState V W → List (SideProperty V W) →
    SideContext B C V W →
    SideHandlerState V W × List (SideProperty V W) × SideContext B C V W
  | [], s, dest, ctx => finalize cfg compat s dest ctx
  | p :: rest, s, dest, ctx =>
    let r := handle_property cfg compat p s dest ctx
    handle_list cfg compat rest r.2.1 r.2.2.1 r.2.2.2

/-- The parsed payload values carried by a family property: the values a
reader of the output CSS would see in that declaration. -/
def SideProperty.vals : SideProperty V W → List V
  | SideProperty.top v => [v]
  | SideProperty.bottom v => [v]
  | SideProperty.left v => [v]
  | SideProperty.right v => [v]
  | SideProperty.blockStart v => [v]
  | SideProperty.blockEnd v => [v]
  | SideProperty.inlineStart v => [v]
  | SideProperty.inlineEnd v => [v]
  | SideProperty.shorthand (t, r, b, l) => [t, r, b, l]
  | SideProperty.blockShorthand (a, b) => [a, b]
  | SideProperty.inlineShorthand (a, b) => [a, b]
  | SideProperty.unparsed _ => []
  | SideProperty.other => []

/-- The raw token payloads carried by a family property (only `Unparsed`
has one). -/
def SideProperty.raws : SideProperty V W → List W
  | SideProperty.unparsed u => [u.value]
  | _ => []

/-- All parsed payload values of a declaration list. -/
def listVals (l : List (SideProperty V W)) : List V :=
  l.foldr (fun p acc => p.vals ++ acc) []

/-- All raw token payloads of a declaration list. -/
def listRaws (l : List (SideProperty V W)) : List W :=
  l.foldr (fun p acc => p.raws ++ acc) []

/-- The payload of `p` survives into the declaration list `l`: every
parsed value and every raw token stream of `p` occurs somewhere in `l`
(possibly inside a shorthand or under a different longhand id). -/
def survivesIn (p : SideProperty V W) (l : List (SideProperty V W)) : Prop :=
  (∀ v ∈ p.vals, v ∈ listVals l) ∧ (∀ w ∈ p.raws, w ∈ listRaws l)

/-- Well-formedness of the `block_start` slot: `handle_property` only
ever stores the typed block-start longhand or an `Unparsed` property
with the block-start id there. -/
def blockStartWF : Option (SideProperty V W) → Bool
  | none => true
  | some (SideProperty.blockStart _) => true
  | some (SideProperty.unparsed u) => u.property_id == SidePropertyId.blockStart
  | some _ => false

/-- Well-formedness of the `block_end` slot. -/
def blockEndWF : Option (SideProperty V W) → Bool
  | none => true
  | some (SideProperty.blockEnd _) => true
  | some (SideProperty.unparsed u) => u.property_id == SidePropertyId.blockEnd
  | some _ => false

/-- Well-formedness of the `inline_start` slot. -/
def inlineStartWF : Option (SideProperty V W) → Bool
  | none => true
  | some (SideProperty.inlineStart _) => true
  | some (SideProperty.unparsed u) => u.property_id == SidePropertyId.inlineStart
  | some _ => false

/-- Well-formedness of the `inline_end` slot. -/
def inlineEndWF : Option (SideProperty V W) → Bool
  | none => true
  | some (SideProperty.inlineEnd _) => true
  | some (SideProperty.unparsed u) => u.property_id == SidePropertyId.inlineEnd
  | some _ => false

/-- All four logical slots of a handler state are well-formed (an
invariant of every state `handle_property` can reach). -/
def SideHandlerState.logicalSlotsWF (s : SideHandlerState V W) : Bool :=
  blockStartWF s.block_start && blockEndWF s.block_end &&
    inlineStartWF s.inline_start && inlineEndWF s.inline_end

/-- The property is one of the four physical longhands of the family. -/
def SideProperty.isPhysicalLonghand : SideProperty V W → Bool
  | SideProperty.top _ => true
  | SideProperty.bottom _ => true
  | SideProperty.left _ => true
  | SideProperty.right _ => true
  | _ => false

/-- The property is stored through the `logical_property!` macro: a
typed logical longhand, a two-axis logical shorthand, or an `Unparsed`
property with a logical longhand id. -/
def SideProperty.isLogicalInput : SideProperty V W → Bool
  | SideProperty.blockStart _ => true
  | SideProperty.blockEnd _ => true
  | SideProperty.inlineStart _ => true
  | SideProperty.inlineEnd _ => true
  | SideProperty.blockShorthand _ => true
  | SideProperty.inlineShorthand _ => true
  | SideProperty.unparsed u =>
    match u.property_id with
    | SidePropertyId.blockStart => true
    | SidePropertyId.blockEnd => true
    | SidePropertyId.inlineStart => true
    | SidePropertyId.inlineEnd => true
    | _ => false
  | _ => false

/-- The incoming property's category differs from the accumulated one:
a physical longhand arriving while the category is `Logical`, or a
logical store arriving while the category is `Physical`. -/
def crossCategory (s : SideHandlerState V W) (p : SideProperty V W) : Bool :=
  (p.isPhysicalLonghand && s.category == PropertyCategory.logical) ||
    (p.isLogicalInput && s.category == PropertyCategory.physical)

/-- The state expected after a flush followed by storing `p`: all slots
cleared except the slot(s) `p` fills, `has_any` set, and the category
switched to `p`'s category. Properties that are not slot stores leave
the cleared state unchanged (they cannot satisfy `crossCategory`). -/
def storeResult (s : SideHandlerState V W) (p : SideProperty V W) : SideHandlerState V W :=
  let base : SideHandlerState V W := { s with
    top := none, bottom := none, left := none, right := none
    block_start := none, block_end := none, inline_start := none, inline_end := none
    has_any := true }
  match p with
  | SideProperty.top v => { base with top := some v, category := PropertyCategory.physical }
  | SideProperty.bottom v => { base with bottom := some v, category := PropertyCategory.physical }
  | SideProperty.left v => { base with left := some v, category := PropertyCategory.physical }
  | SideProperty.right v => { base with right := some v, category := PropertyCategory.physical }
  | SideProperty.blockStart v =>
    { base with block_start := some (SideProperty.blockStart v), category := PropertyCategory.logical }
  | SideProperty.blockEnd v =>
    { base with block_end := some (SideProperty.blockEnd v), category := PropertyCategory.logical }
  | SideProperty.inlineStart v =>
    { base with inline_start := some (SideProperty.inlineStart v), category := PropertyCategory.logical }
  | SideProperty.inlineEnd v =>
    { base with inline_end := some (SideProperty.inlineEnd v), category := PropertyCategory.logical }
  | SideProperty.blockShorthand (a, b) =>
    { base with
      block_start := some (SideProperty.blockStart a)
      block_end := some (SideProperty.blockEnd b)
      category := PropertyCategory.logical }
  | SideProperty.inlineShorthand (a, b) =>
    { base with
      inline_start := some (SideProperty.inlineStart a)
      inline_end := some (SideProperty.inlineEnd b)
      category := PropertyCategory.logical }
  | SideProperty.shorthand _ => base
  | SideProperty.unparsed u =>
    match u.property_id with
    | SidePropertyId.blockStart =>
      { base with block_start := some (SideProperty.unparsed u), category := PropertyCategory.logical }
    | SidePropertyId.blockEnd =>
      { base with block_end := some (SideProperty.unparsed u), category := PropertyCategory.logical }
    | SidePropertyId.inlineStart =>
      { base with inline_start := some (SideProperty.unparsed u), category := PropertyCategory.logical }
    | SidePropertyId.inlineEnd =>
      { base with inline_end := some (SideProperty.unparsed u), category := PropertyCategory.logical }
    | _ => base
  | SideProperty.other => base

/-- The deferred (LTR, RTL) pair mapping as the spec states it:
inline-start maps to (left, right) and inline-end to (right, left), with
`Unparsed` values keeping their raw value and having their property id
swapped accordingly. Stated from the spec's words as the comparison
point for the flush's behaviour. -/
def claimInlinePairs (inline_start inline_end : Option (SideProperty V W)) :
    List (SideProperty V W × SideProperty V W) :=
  (match inline_start with
   | some (SideProperty.inlineStart v) => [(SideProperty.left v, SideProperty.right v)]
   | some (SideProperty.unparsed u) =>
     [(SideProperty.unparsed { u with property_id := SidePropertyId.left },
       SideProperty.unparsed { u with property_id := SidePropertyId.right })]
   | _ => []) ++
  (match inline_end with
   | some (SideProperty.inlineEnd v) => [(SideProperty.right v, SideProperty.left v)]
   | some (SideProperty.unparsed u) =>
     [(SideProperty.unparsed { u with property_id := SidePropertyId.right },
       SideProperty.unparsed { u with property_id := SidePropertyId.left })]
   | _ => [])

/-- A compatibility oracle that supports every feature on every target
(used to instantiate theorems at concrete inputs). -/
def compatAll : Feature → Nat → Bool := fun _ _ => true

/-- A compatibility oracle that rejects every feature on every target
(a legacy target matrix). -/
def compatNone : Feature → Nat → Bool := fun _ _ => false

/-- A concrete style-rule context with no targets, over `Nat`
instantiations of all type parameters. -/
def ctxStyleRule : SideContext Nat Nat Nat Nat :=
  { targets := none, is_important := false, supports := [], ltr := [], rtl := []
    context := DeclarationContext.styleRule }

/-- A concrete style-rule context with a target matrix configured. -/
def ctxStyleRuleTargets : SideContext Nat Nat Nat Nat :=
  { targets := some 0, is_important := false, supports := [], ltr := [], rtl := []
    context := DeclarationContext.styleRule }

/-- A concrete fallback producer over `Nat` instantiations: one fallback
under condition `7` with the value bumped by one, leaving the primary
value unchanged. -/
def getFallbacksEx : Nat → Nat → List (Nat × Nat) × Nat := fun v _ => ([(7, v + 1)], v)

/-- A concrete style-attribute context over `Nat` instantiations of the
context's type parameters, with a target matrix configured. -/
def ctxStyleAttr : PropertyHandlerContext Nat Nat (CtxProperty Nat Nat) :=
  { targets := some 0, is_important := false, supports := [], ltr := [], rtl := []
    context := DeclarationContext.styleAttribute }

/-- A concrete keyframes context over `Nat` instantiations. -/
def ctxKeyframes : PropertyHandlerContext Nat Nat Nat :=
  { targets := some 0, is_important := false, supports := [], ltr := [], rtl := []
    context := DeclarationContext.keyframes }

/-- Every definition above this point models the source; the remainder of
the file proves the claims against it. The context is never mutated
except through the operations above, so field-preservation lemmas come
first. -/
theorem add_conditional_property_fields [DecidableEq C]
    (ctx : PropertyHandlerContext B C P) (condition : C) (property : P) :
    (ctx.add_conditional_property condition property).context = ctx.context ∧
    (ctx.add_conditional_property condition property).is_important = ctx.is_important ∧
    (ctx.add_conditional_property condition property).targets = ctx.targets ∧
    (ctx.add_conditional_property condition property).ltr = ctx.ltr ∧
    (ctx.add_conditional_property condition property).rtl = ctx.rtl := by
  unfold PropertyHandlerContext.add_conditional_property
  split <;> simp

/-- `insertConditional` leaves a list with every condition distinct from
the inserted one unchanged except for a fresh entry at the end. -/
theorem insertConditional_not_found [DecidableEq C] (imp : Bool) (cond : C) (p : P)
    (l : List (SupportsEntry C P)) (h : ∀ e ∈ l, e.condition ≠ cond) :
    insertConditional imp cond p l =
      l ++ [{ condition := cond
              declarations := if imp then [] else [p]
              important_declarations := if imp then [p] else [] }] := by
  induction l with
  | nil => simp [insertConditional]
  | cons entry rest ih =>
    have hne : cond ≠ entry.condition := fun hc => h entry (List.mem_cons_self _ _) hc.symm
    simp only [insertConditional, if_neg hne, List.cons_append, List.cons.injEq, true_and]
    exact ih (fun e he => h e (List.mem_cons_of_mem _ he))

/-- `insertConditional` mutates exactly the first entry whose condition
matches, leaving everything else in place. -/
theorem insertConditional_found [DecidableEq C] (imp : Bool) (cond : C) (p : P)
    (pre : List (SupportsEntry C P)) (e : SupportsEntry C P)
    (post : List (SupportsEntry C P)) (hpre : ∀ x ∈ pre, x.condition ≠ cond)
    (he : e.condition = cond) :
    insertConditional imp cond p (pre ++ e :: post) =
      pre ++ addToSupportsEntry imp p e :: post := by
  induction pre with
  | nil => simp [insertConditional, he.symm]
  | cons x rest ih =>
    have hne : cond ≠ x.condition := fun hc => hpre x (List.mem_cons_self _ _) hc.symm
    simp only [List.cons_append, insertConditional, if_neg hne, List.cons.injEq, true_and]
    exact ih (fun y hy => hpre y (List.mem_cons_of_mem _ hy))

/-- The property just inserted by `insertConditional` is present in an
entry carrying its condition, in the list selected by the importance
flag. -/
theorem insertConditional_self_mem [DecidableEq C] (imp : Bool) (cond : C) (p : P)
    (l : List (SupportsEntry C P)) :
    ∃ e ∈ insertConditional imp cond p l, e.condition = cond ∧
      p ∈ (if imp then e.important_declarations else e.declarations) := by
  induction l with
  | nil =>
    refine ⟨_, List.mem_singleton.mpr rfl, rfl, ?_⟩
    cases imp <;> simp
  | cons entry rest ih =>
    by_cases h : cond = entry.condition
    · refine ⟨addToSupportsEntry imp p entry, ?_, ?_, ?_⟩
      · simp [insertConditional, h]
      · cases imp <;> simp [addToSupportsEntry, h.symm]
      · cases imp <;> simp [addToSupportsEntry]
    · obtain ⟨e, he, hc, hm⟩ := ih
      refine ⟨e, ?_, hc, hm⟩
      simp [insertConditional, h]
      exact Or.inr he

/-- `insertConditional` never removes a property from the buffer: any
property already present in an entry with some condition is still
present after the insertion. -/
theorem insertConditional_mem_mono [DecidableEq C] (imp : Bool) (cond : C) (p : P)
    (l : List (SupportsEntry C P)) (c : C) (sel : Bool) (q : P)
    (h : ∃ e ∈ l, e.condition = c ∧
      q ∈ (if sel then e.important_declarations else e.declarations)) :
    ∃ e ∈ insertConditional imp cond p l, e.condition = c ∧
      q ∈ (if sel then e.important_declarations else e.declarations) := by
  induction l with
  | nil => simp at h
  | cons entry rest ih =>
    obtain ⟨e, he, hc, hm⟩ := h
    by_cases hcond : cond = entry.condition
    · rcases List.mem_cons.mp he with rfl | hrest
      · refine ⟨addToSupportsEntry imp p e, ?_, ?_, ?_⟩
        · simp [insertConditional, hcond]
        · cases imp <;> simpa [addToSupportsEntry] using hc
        · cases imp <;> cases sel <;> simp [addToSupportsEntry] at hm ⊢ <;> simp [hm]
      · refine ⟨e, ?_, hc, hm⟩
        simp [insertConditional, hcond]
        exact Or.inr hrest
    · rcases List.mem_cons.mp he with rfl | hrest
      · refine ⟨e, ?_, hc, hm⟩
        simp [insertConditional, hcond]
      · obtain ⟨e', he', hc', hm'⟩ := ih ⟨e, hrest, hc, hm⟩
        refine ⟨e', ?_, hc', hm'⟩
        simp [insertConditional, hcond]
        exact Or.inr he'

/-- A fold of `add_conditional_property` calls leaves the context's
non-supports fields unchanged. -/
theorem foldl_add_conditional_fields {X : Type} [DecidableEq C]
    (f : X → C) (g : X → P) (l : List X) (ctx : PropertyHandlerContext B C P) :
    (l.foldl (fun c y => c.add_conditional_property (f y) (g y)) ctx).context = ctx.context ∧
    (l.foldl (fun c y => c.add_conditional_property (f y) (g y)) ctx).is_important =
      ctx.is_important ∧
    (l.foldl (fun c y => c.add_conditional_property (f y) (g y)) ctx).targets = ctx.targets ∧
    (l.foldl (fun c y => c.add_conditional_property (f y) (g y)) ctx).ltr = ctx.ltr ∧
    (l.foldl (fun c y => c.add_conditional_property (f y) (g y)) ctx).rtl = ctx.rtl := by
  induction l generalizing ctx with
  | nil => simp
  | cons x rest ih =>
    obtain ⟨h1, h2, h3, h4, h5⟩ := ih (ctx.add_conditional_property (f x) (g x))
    obtain ⟨g1, g2, g3, g4, g5⟩ := add_conditional_property_fields ctx (f x) (g x)
    exact ⟨by simp [List.foldl_cons, h1, g1], by simp [List.foldl_cons, h2, g2],
      by simp [List.foldl_cons, h3, g3], by simp [List.foldl_cons, h4, g4],
      by simp [List.foldl_cons, h5, g5]⟩

/-- Outside the `StyleRule` context, a fold of `add_conditional_property`
calls is the identity. -/
theorem foldl_add_conditional_of_not_styleRule {X : Type} [DecidableEq C]
    (f : X → C) (g : X → P) (l : List X) (ctx : PropertyHandlerContext B C P)
    (hctx : ctx.context ≠ DeclarationContext.styleRule) :
    l.foldl (fun c y => c.add_conditional_property (f y) (g y)) ctx = ctx := by
  induction l with
  | nil => rfl
  | cons x rest ih =>
    have hid : ctx.add_conditional_property (f x) (g x) = ctx := by
      unfold PropertyHandlerContext.add_conditional_property
      simp [hctx]
    simp [List.foldl_cons, hid, ih]

/-- A fold of `add_conditional_property` calls never removes a property
from the supports buffer. -/
theorem foldl_add_conditional_mem_mono {X : Type} [DecidableEq C]
    (f : X → C) (g : X → P) (l : List X) (ctx : PropertyHandlerContext B C P)
    (c : C) (sel : Bool) (q : P)
    (h : ∃ e ∈ ctx.supports, e.condition = c ∧
      q ∈ (if sel then e.important_declarations else e.declarations)) :
    ∃ e ∈ (l.foldl (fun c' y => c'.add_conditional_property (f y) (g y)) ctx).supports,
      e.condition = c ∧
      q ∈ (if sel then e.important_declarations else e.declarations) := by
  induction l generalizing ctx with
  | nil => exact h
  | cons x rest ih =>
    refine ih (ctx.add_conditional_property (f x) (g x)) ?_
    unfold PropertyHandlerContext.add_conditional_property
    split
    · exact h
    · exact insertConditional_mem_mono _ _ _ _ _ _ _ h

/-- In the `StyleRule` context, every element of the folded list is
recorded in the supports buffer: an entry with its condition holds its
property in the list selected by the context's importance flag. -/
theorem foldl_add_conditional_mem {X : Type} [DecidableEq C]
    (f : X → C) (g : X → P) (l : List X) (ctx : PropertyHandlerContext B C P)
    (hctx : ctx.context = DeclarationContext.styleRule) (x : X) (hx : x ∈ l) :
    ∃ e ∈ (l.foldl (fun c y => c.add_conditional_property (f y) (g y)) ctx).supports,
      e.condition = f x ∧
      g x ∈ (if ctx.is_important then e.important_declarations else e.declarations) := by
  induction l generalizing ctx with
  | nil => simp at hx
  | cons y rest ih =>
    rcases List.mem_cons.mp hx with rfl | hrest
    · refine foldl_add_conditional_mem_mono f g rest _ _ _ _ ?_
      unfold PropertyHandlerContext.add_conditional_property
      simp [hctx]
      exact insertConditional_self_mem ctx.is_important (f x) (g x) ctx.supports
    · obtain ⟨hc, hi, _, _, _⟩ :=
        add_conditional_property_fields ctx (f y) (g y)
      have := ih (ctx.add_conditional_property (f y) (g y)) (by simp [hc, hctx]) hrest
      simpa [hi] using this

/-- C6: `add_conditional_property(condition, property)` leaves the
context unchanged unless the `DeclarationContext` is `StyleRule` (so in
`Keyframes` context no supports side-outputs are ever produced); in
`StyleRule` context the property is appended to the first entry whose
condition equals the given one when such an entry exists, and to a fresh
entry at the end otherwise, going to the entry's important or normal
list according to the context's `is_important` flag; no other context
field changes. -/
theorem c6_add_conditional_property [DecidableEq C]
    (ctx : PropertyHandlerContext B C P) (condition : C) (property : P) :
    (ctx.context ≠ DeclarationContext.styleRule →
      ctx.add_conditional_property condition property = ctx) ∧
    (ctx.context = DeclarationContext.styleRule →
      ((∀ e ∈ ctx.supports, e.condition ≠ condition) →
        (ctx.add_conditional_property condition property).supports =
          ctx.supports ++
            [{ condition := condition
               declarations := if ctx.is_important then [] else [property]
               important_declarations := if ctx.is_important then [property] else [] }]) ∧
      (∀ pre e post, ctx.supports = pre ++ e :: post →
        (∀ x ∈ pre, x.condition ≠ condition) → e.condition = condition →
        (ctx.add_conditional_property condition property).supports =
          pre ++ addToSupportsEntry ctx.is_important property e :: post)) ∧
    ((ctx.add_conditional_property condition property).ltr = ctx.ltr ∧
     (ctx.add_conditional_property condition property).rtl = ctx.rtl ∧
     (ctx.add_conditional_property condition property).context = ctx.context ∧
     (ctx.add_conditional_property condition property).is_important = ctx.is_important ∧
     (ctx.add_conditional_property condition property).targets = ctx.targets) := by
  refine ⟨?_, ?_, ?_⟩
  · intro h
    unfold PropertyHandlerContext.add_conditional_property
    simp [h]
  · intro h
    constructor
    · intro hnone
      unfold PropertyHandlerContext.add_conditional_property
      simp only [h, ne_eq, not_true_eq_false, if_false, ite_false]
      exact insertConditional_not_found _ _ _ _ hnone
    · intro pre e post hsplit hpre he
      unfold PropertyHandlerContext.add_conditional_property
      simp only [h, ne_eq, not_true_eq_false, if_false, ite_false, hsplit]
      exact insertConditional_found _ _ _ _ _ _ hpre he
  · obtain ⟨a, b, c, d, e⟩ := add_conditional_property_fields ctx condition property
    exact ⟨d, e, a, b, c⟩

/-- C6 witness: in a concrete `Keyframes` context, adding a conditional
property changes nothing. -/
theorem c6_witness :
    ctxKeyframes.context ≠ DeclarationContext.styleRule ∧
    ctxKeyframes.add_conditional_property 5 9 = ctxKeyframes :=
  ⟨by decide, (c6_add_conditional_property ctxKeyframes 5 9).1 (by decide)⟩

/-- C7: `is_supported` returns true when the `DeclarationContext` is
`StyleAttribute`; otherwise true when no targets are configured;
otherwise exactly the compatibility oracle's answer for the feature
against the target matrix. -/
theorem c7_is_supported (compat : Feature → B → Bool)
    (ctx : PropertyHandlerContext B C P) (feature : Feature) :
    (ctx.context = DeclarationContext.styleAttribute →
      ctx.is_supported compat feature = true) ∧
    (ctx.context ≠ DeclarationContext.styleAttribute → ctx.targets = none →
      ctx.is_supported compat feature = true) ∧
    (∀ t, ctx.context ≠ DeclarationContext.styleAttribute → ctx.targets = some t →
      ctx.is_supported compat feature = compat feature t) := by
  unfold PropertyHandlerContext.is_supported
  refine ⟨fun h => by simp [h], fun h ht => by simp [h, ht], fun t h ht => by simp [h, ht]⟩

/-- C7 witness: a concrete style-rule context with targets consults the
oracle verbatim. -/
theorem c7_witness :
    ctxStyleRuleTargets.context ≠ DeclarationContext.styleAttribute ∧
    ctxStyleRuleTargets.targets = some 0 ∧
    ctxStyleRuleTargets.is_supported compatNone Feature.logicalMargin =
      compatNone Feature.logicalMargin 0 :=
  ⟨by decide, rfl,
    (c7_is_supported compatNone ctxStyleRuleTargets Feature.logicalMargin).2.2 0
      (by decide) rfl⟩

/-- C8: `get_logical_rules` returns at most two synthesized style
rules - the drained LTR buffer rule when non-empty, followed by the
drained RTL buffer rule when non-empty - each carrying the originating
selectors with the direction pseudo class appended to every selector,
the drained buffer as normal declarations, no important declarations,
no nested rules and the originating location; afterwards both buffers
are empty (the harvest is destructive) and no other context field
changes. -/
theorem c8_get_logical_rules (ctx : PropertyHandlerContext B C P)
    (style_rule : StyleRule A MQ P C) :
    (ctx.get_logical_rules style_rule).1 =
      (if ctx.ltr.isEmpty then [] else
        [CssRule.style
          (style_rule.selectors.map (fun sel => sel ++ [SelComponent.dir Direction.ltr]))
          VendorPrefix.none
          { declarations := ctx.ltr, important_declarations := [] }
          [] style_rule.loc]) ++
      (if ctx.rtl.isEmpty then [] else
        [CssRule.style
          (style_rule.selectors.map (fun sel => sel ++ [SelComponent.dir Direction.rtl]))
          VendorPrefix.none
          { declarations := ctx.rtl, important_declarations := [] }
          [] style_rule.loc]) ∧
    (ctx.get_logical_rules style_rule).2.ltr = [] ∧
    (ctx.get_logical_rules style_rule).2.rtl = [] ∧
    (ctx.get_logical_rules style_rule).2.supports = ctx.supports ∧
    (ctx.get_logical_rules style_rule).2.targets = ctx.targets ∧
    (ctx.get_logical_rules style_rule).2.is_important = ctx.is_important ∧
    (ctx.get_logical_rules style_rule).2.context = ctx.context := by
  unfold PropertyHandlerContext.get_logical_rules
  cases hl : ctx.ltr <;> cases hr : ctx.rtl <;> simp [hl, hr]

/-- C9: `StyleSheet::minify` builds the `@custom-media` lookup table if
and only if the parser options enable custom media, the minify options
carry a target matrix, and the `CustomMediaQueries` feature is not
compatible with it; in every other case (in particular with no targets
configured) the lookup is `none` and, per the spec, references are then
left verbatim by the rule walk. -/
theorem c9_custom_media_lookup (compat : Feature → B → Bool)
    (popts : ParserOptions) (mopts : MinifyOptions B)
    (rules : List (CssRule A MQ P C)) :
    (buildCustomMediaLookup compat popts mopts rules).isSome = true ↔
      popts.custom_media = true ∧
        ∃ t, mopts.targets = some t ∧ compat Feature.customMediaQueries t = false := by
  unfold buildCustomMediaLookup
  cases ht : mopts.targets with
  | none => simp
  | some t =>
    by_cases hc : popts.custom_media <;>
      cases hq : compat Feature.customMediaQueries t <;> simp [hc, hq]

/-- C10: the validation tail of `PropertyRule::parse` rejects a body
whose accumulated state lacks a `syntax` declaration or lacks an
`inherits` declaration with `AtRuleBodyInvalid`, likewise when the
declared syntax is not the universal definition and no `initial-value`
declaration is present; with a universal syntax and no `initial-value`,
parsing succeeds with `initial_value = none`. -/
theorem c10_property_rule_parse {Raw Cmp : Type}
    (parse_value : SyntaxString → Raw → Except CssParserError Cmp)
    (name : String) (loc : Location) (st : PropertyRuleDeclState Raw) :
    (st.syn = none →
      PropertyRule.parseFromState parse_value name loc st =
        Except.error CssParserError.atRuleBodyInvalid) ∧
    (st.inherits = none →
      PropertyRule.parseFromState parse_value name loc st =
        Except.error CssParserError.atRuleBodyInvalid) ∧
    (∀ k, st.syn = some (SyntaxString.components k) → st.initial_value = none →
      PropertyRule.parseFromState parse_value name loc st =
        Except.error CssParserError.atRuleBodyInvalid) ∧
    (∀ inh, st.syn = some SyntaxString.universal → st.inherits = some inh →
      st.initial_value = none →
      PropertyRule.parseFromState parse_value name loc st =
        Except.ok { name := name, syn := SyntaxString.universal, inherits := inh
                    initial_value := none, loc := loc }) := by
  unfold PropertyRule.parseFromState
  refine ⟨fun h => by simp [h], ?_, ?_, ?_⟩
  · intro h
    cases hs : st.syn <;> simp [h, hs]
  · intro k hs hi
    cases hinh : st.inherits <;> simp [hs, hi, hinh]
  · intro inh hs hinh hi
    simp [hs, hinh, hi]

/-- C10 witness: a `@property` body carrying only a universal `syntax`
declaration and an `inherits` declaration parses successfully end to end
with no initial value, without ever invoking the value parser. -/
theorem c10_witness :
    PropertyRule.parse (fun _ (_ : Nat) => (Except.error CssParserError.unexpectedToken : Except CssParserError Nat))
      "--x" { source_index := 0, line := 0, column := 0 }
      [PropertyDecl.synDecl SyntaxString.universal, PropertyDecl.inheritsDecl true] =
      (Except.ok { name := "--x", syn := SyntaxString.universal, inherits := true
                   initial_value := (none : Option Nat)
                   loc := { source_index := 0, line := 0, column := 0 } }) := by
  have h :=
    (c10_property_rule_parse
      (fun _ (_ : Nat) => (Except.error CssParserError.unexpectedToken : Except CssParserError Nat))
      "--x" { source_index := 0, line := 0, column := 0 }
      { syn := some SyntaxString.universal, inherits := some true
        initial_value := none }).2.2.2 true rfl rfl rfl
  simpa [PropertyRule.parse, runPropertyDecls] using h

/-- C5 (amended): when the `DeclarationContext` is `None` or `Keyframes`,
`add_unparsed_fallbacks` changes nothing; in `StyleRule` context with a
target matrix, every fallback yielded by the value fallback producer is
recorded in the supports buffer as an `Unparsed` property with the same
property id; in `StyleAttribute` context the producer runs (the primary
value may be rewritten) but `add_conditional_property`'s
`StyleRule`-only gate drops every fallback, so the supports buffer is
unchanged there as well. -/
theorem c5_add_unparsed_fallbacks [DecidableEq C]
    (get_fallbacks : W → B → List (C × W) × W)
    (ctx : PropertyHandlerContext B C (CtxProperty Pid W))
    (unparsed : UnparsedProperty Pid W) :
    ((ctx.context = DeclarationContext.none ∨
        ctx.context = DeclarationContext.keyframes) →
      ctx.add_unparsed_fallbacks get_fallbacks unparsed = (ctx, unparsed)) ∧
    (ctx.context = DeclarationContext.styleRule →
      ∀ t, ctx.targets = some t →
        ∀ cf ∈ (get_fallbacks unparsed.value t).1,
          ∃ e ∈ (ctx.add_unparsed_fallbacks get_fallbacks unparsed).1.supports,
            e.condition = cf.1 ∧
            CtxProperty.unparsed { property_id := unparsed.property_id, value := cf.2 } ∈
              (if ctx.is_important then e.important_declarations else e.declarations)) ∧
    (ctx.context = DeclarationContext.styleAttribute →
      (ctx.add_unparsed_fallbacks get_fallbacks unparsed).1.supports = ctx.supports) := by
  refine ⟨?_, ?_, ?_⟩
  · intro h
    unfold PropertyHandlerContext.add_unparsed_fallbacks
    rcases h with h | h <;> simp [h]
  · intro h t ht cf hcf
    unfold PropertyHandlerContext.add_unparsed_fallbacks
    simp only [h, ht, ne_eq, not_true_eq_false, false_and, if_false, ite_false]
    exact foldl_add_conditional_mem
      (fun cf : C × W => cf.1)
      (fun cf : C × W =>
        CtxProperty.unparsed { property_id := unparsed.property_id, value := cf.2 })
      _ ctx h cf hcf
  · intro h
    unfold PropertyHandlerContext.add_unparsed_fallbacks
    cases ht : ctx.targets with
    | none => simp [h, ht]
    | some t =>
      simp only [h, ht, ne_eq, not_false_eq_true, and_false, if_false, ite_false]
      rw [foldl_add_conditional_of_not_styleRule _ _ _ _ (by simp [h])]
      simp

/-- C5 counterexample: in a concrete `StyleAttribute` context with a
target matrix, the producer yields a fallback, yet nothing is recorded:
the supports buffer stays empty, refuting the claim that fallbacks are
recorded in the `StyleAttribute` context as in `StyleRule`. -/
theorem c5_counterexample :
    (getFallbacksEx 10 0).1 = [(7, 11)] ∧
    (ctxStyleAttr.add_unparsed_fallbacks getFallbacksEx
      { property_id := 3, value := 10 }).1.supports = [] := by
  constructor <;> rfl

/-- C5 witness: in a concrete `StyleRule` context the produced fallback
is recorded under its condition with the same property id. -/
theorem c5_witness :
    ∃ e ∈ (PropertyHandlerContext.add_unparsed_fallbacks getFallbacksEx
      { targets := some 0, is_important := false, supports := [], ltr := [], rtl := []
        context := DeclarationContext.styleRule }
      { property_id := 3, value := 10 }).1.supports,
      e.condition = 7 ∧
      CtxProperty.unparsed { property_id := 3, value := 11 } ∈ e.declarations := by
  have h := (c5_add_unparsed_fallbacks getFallbacksEx
    { targets := some 0, is_important := false, supports := [], ltr := [], rtl := []
      context := DeclarationContext.styleRule }
    { property_id := 3, value := 10 }).2.1 rfl 0 rfl (7, 11) (by decide)
  simpa using h

/-- A sequence of `add_logical_rule` calls appends the LTR components to
the LTR buffer and the RTL components to the RTL buffer, in order. -/
theorem foldl_add_logical_rule (ctx : PropertyHandlerContext B C P)
    (prs : List (P × P)) :
    prs.foldl (fun c pr => c.add_logical_rule pr.1 pr.2) ctx =
      { ctx with ltr := ctx.ltr ++ prs.map Prod.fst, rtl := ctx.rtl ++ prs.map Prod.snd } := by
  induction prs generalizing ctx with
  | nil => simp
  | cons pr rest ih =>
    rw [List.foldl_cons, ih]
    simp [PropertyHandlerContext.add_logical_rule]

/-- A real flush (`has_any = true`) clears all eight slots and the
`has_any` flag, leaving the category untouched. -/
theorem flush_state [DecidableEq V] (cfg : SideConfig) (compat : Feature → B → Bool)
    (s : SideHandlerState V W) (dest : List (SideProperty V W))
    (ctx : SideContext B C V W) (h : s.has_any = true) :
    (flush cfg compat s dest ctx).1 = { s with
      top := none, bottom := none, left := none, right := none
      block_start := none, block_end := none, inline_start := none, inline_end := none
      has_any := false } := by
  simp [flush, h]

/-- A real flush appends the physical, block-axis and inline-axis
outputs to `dest`, in that order. -/
theorem flush_dest [DecidableEq V] (cfg : SideConfig) (compat : Feature → B → Bool)
    (s : SideHandlerState V W) (dest : List (SideProperty V W))
    (ctx : SideContext B C V W) (h : s.has_any = true) :
    (flush cfg compat s dest ctx).2.1 =
      dest ++
        flushPhysical cfg.logical_shorthand (logicalSupported cfg compat ctx)
          s.top s.bottom s.left s.right ++
        flushBlock (logicalSupported cfg compat ctx) s.block_start s.block_end ++
        (flushInline (logicalSupported cfg compat ctx) s.inline_start s.inline_end).1 := by
  simp [flush, h]

/-- A real flush extends the LTR/RTL buffers with exactly the inline
logical-rule pairs, touching no other context field. -/
theorem flush_ctx [DecidableEq V] (cfg : SideConfig) (compat : Feature → B → Bool)
    (s : SideHandlerState V W) (dest : List (SideProperty V W))
    (ctx : SideContext B C V W) (h : s.has_any = true) :
    (flush cfg compat s dest ctx).2.2 =
      { ctx with
        ltr := ctx.ltr ++
          ((flushInline (logicalSupported cfg compat ctx) s.inline_start s.inline_end).2).map
            Prod.fst
        rtl := ctx.rtl ++
          ((flushInline (logicalSupported cfg compat ctx) s.inline_start s.inline_end).2).map
            Prod.snd } := by
  simp [flush, h, foldl_add_logical_rule]

/-- C3: with accumulated state, a physical longhand arriving while the
category is `Logical`, or a logical longhand, two-axis logical shorthand
or `Unparsed` logical longhand arriving while the category is
`Physical`, first flushes the accumulator into the destination and only
then stores the new value into the now-empty slots and switches the
category. Consequently nothing accumulated before the transition can
fold with what arrives after it, and each category transition
materializes one flush in input order. -/
theorem c3_category_transition_flush [DecidableEq V]
    (cfg : SideConfig) (compat : Feature → B → Bool)
    (s : SideHandlerState V W) (dest : List (SideProperty V W))
    (ctx : SideContext B C V W) (p : SideProperty V W)
    (h : s.has_any = true) (hcross : crossCategory s p = true) :
    handle_property cfg compat p s dest ctx =
      (true, storeResult s p, (flush cfg compat s dest ctx).2.1,
        (flush cfg compat s dest ctx).2.2) := by
  cases p with
  | top v =>
    have hcat : s.category = PropertyCategory.logical := by
      simpa [crossCategory, SideProperty.isPhysicalLonghand,
        SideProperty.isLogicalInput] using hcross
    simp [handle_property, storePhysicalSlot, storeResult, hcat, flush_state, h]
  | bottom v =>
    have hcat : s.category = PropertyCategory.logical := by
      simpa [crossCategory, SideProperty.isPhysicalLonghand,
        SideProperty.isLogicalInput] using hcross
    simp [handle_property, storePhysicalSlot, storeResult, hcat, flush_state, h]
  | left v =>
    have hcat : s.category = PropertyCategory.logical := by
      simpa [crossCategory, SideProperty.isPhysicalLonghand,
        SideProperty.isLogicalInput] using hcross
    simp [handle_property, storePhysicalSlot, storeResult, hcat, flush_state, h]
  | right v =>
    have hcat : s.category = PropertyCategory.logical := by
      simpa [crossCategory, SideProperty.isPhysicalLonghand,
        SideProperty.isLogicalInput] using hcross
    simp [handle_property, storePhysicalSlot, storeResult, hcat, flush_state, h]
  | blockStart v =>
    have hcat : s.category = PropertyCategory.physical := by
      simpa [crossCategory, SideProperty.isPhysicalLonghand,
        SideProperty.isLogicalInput] using hcross
    simp [handle_property, storeLogicalSlot, storeResult, hcat, flush_state, h]
  | blockEnd v =>
    have hcat : s.category = PropertyCategory.physical := by
      simpa [crossCategory, SideProperty.isPhysicalLonghand,
        SideProperty.isLogicalInput] using hcross
    simp [handle_property, storeLogicalSlot, storeResult, hcat, flush_state, h]
  | inlineStart v =>
    have hcat : s.category = PropertyCategory.physical := by
      simpa [crossCategory, SideProperty.isPhysicalLonghand,
        SideProperty.isLogicalInput] using hcross
    simp [handle_property, storeLogicalSlot, storeResult, hcat, flush_state, h]
  | inlineEnd v =>
    have hcat : s.category = PropertyCategory.physical := by
      simpa [crossCategory, SideProperty.isPhysicalLonghand,
        SideProperty.isLogicalInput] using hcross
    simp [handle_property, storeLogicalSlot, storeResult, hcat, flush_state, h]
  | blockShorthand sz =>
    obtain ⟨a, b⟩ := sz
    have hcat : s.category = PropertyCategory.physical := by
      simpa [crossCategory, SideProperty.isPhysicalLonghand,
        SideProperty.isLogicalInput] using hcross
    simp [handle_property, storeLogicalSlot, storeResult, hcat, flush_state, h]
  | inlineShorthand sz =>
    obtain ⟨a, b⟩ := sz
    have hcat : s.category = PropertyCategory.physical := by
      simpa [crossCategory, SideProperty.isPhysicalLonghand,
        SideProperty.isLogicalInput] using hcross
    simp [handle_property, storeLogicalSlot, storeResult, hcat, flush_state, h]
  | shorthand rect =>
    simp [crossCategory, SideProperty.isPhysicalLonghand,
      SideProperty.isLogicalInput] at hcross
  | unparsed u =>
    have hcat : s.category = PropertyCategory.physical ∧
        (u.property_id = SidePropertyId.blockStart ∨
         u.property_id = SidePropertyId.blockEnd ∨
         u.property_id = SidePropertyId.inlineStart ∨
         u.property_id = SidePropertyId.inlineEnd) := by
      cases hid : u.property_id <;>
        simp [crossCategory, SideProperty.isPhysicalLonghand,
          SideProperty.isLogicalInput, hid] at hcross ⊢ <;> exact hcross
    obtain ⟨hc, hid⟩ := hcat
    rcases hid with hid | hid | hid | hid <;>
      simp [handle_property, storeLogicalSlot, storeResult, hc, hid, flush_state, h]
  | other =>
    simp [crossCategory, SideProperty.isPhysicalLonghand,
      SideProperty.isLogicalInput] at hcross

/-- C3 witness: a concrete margin accumulator holding `margin-top: 1`
(category `Physical`) receives `margin-block-start: 2`; the handler
flushes first and stores the logical longhand into the fresh state. -/
theorem c3_witness :
    ({ SideHandlerState.initial with top := some 1, has_any := true } :
        SideHandlerState Nat Nat).has_any = true ∧
    crossCategory { SideHandlerState.initial with top := some 1, has_any := true }
      (SideProperty.blockStart (2 : Nat) : SideProperty Nat Nat) = true ∧
    handle_property MarginHandler.config compatAll (SideProperty.blockStart 2)
      { SideHandlerState.initial with top := some 1, has_any := true } [] ctxStyleRule =
      (true,
       storeResult { SideHandlerState.initial with top := some 1, has_any := true }
         (SideProperty.blockStart 2),
       (flush MarginHandler.config compatAll
         { SideHandlerState.initial with top := some 1, has_any := true } [] ctxStyleRule).2.1,
       (flush MarginHandler.config compatAll
         { SideHandlerState.initial with top := some 1, has_any := true } [] ctxStyleRule).2.2) :=
  ⟨rfl, by decide,
    c3_category_transition_flush MarginHandler.config compatAll
      { SideHandlerState.initial with top := some 1, has_any := true } [] ctxStyleRule
      (SideProperty.blockStart 2) rfl (by decide)⟩

/-- C2: when logical is not supported, a flush with both typed inline
slots holding equal values emits them inline as the left and right
physical longhands with no logical-rule side output; otherwise the
inline slots contribute no declaration to `dest` and each present slot
is recorded through `add_logical_rule`, inline-start as a (left, right)
pair and inline-end as a (right, left) pair, raw `Unparsed` values
having their property id swapped accordingly. -/
theorem c2_inline_lowering [DecidableEq V]
    (cfg : SideConfig) (compat : Feature → B → Bool)
    (s : SideHandlerState V W) (dest : List (SideProperty V W))
    (ctx : SideContext B C V W)
    (h : s.has_any = true)
    (hls : logicalSupported cfg compat ctx = false) :
    (∀ a b, s.inline_start = some (SideProperty.inlineStart a) →
      s.inline_end = some (SideProperty.inlineEnd b) → a = b →
      (flushInline false s.inline_start s.inline_end).1 =
        [SideProperty.left a, SideProperty.right b] ∧
      (flush cfg compat s dest ctx).2.2.ltr = ctx.ltr ∧
      (flush cfg compat s dest ctx).2.2.rtl = ctx.rtl) ∧
    ((¬ ∃ a, s.inline_start = some (SideProperty.inlineStart a) ∧
        s.inline_end = some (SideProperty.inlineEnd a)) →
      (flushInline false s.inline_start s.inline_end).1 = [] ∧
      (flush cfg compat s dest ctx).2.2.ltr =
        ctx.ltr ++ (claimInlinePairs s.inline_start s.inline_end).map Prod.fst ∧
      (flush cfg compat s dest ctx).2.2.rtl =
        ctx.rtl ++ (claimInlinePairs s.inline_start s.inline_end).map Prod.snd) ∧
    (flush cfg compat s dest ctx).2.1 =
      dest ++ flushPhysical cfg.logical_shorthand false s.top s.bottom s.left s.right ++
        flushBlock false s.block_start s.block_end ++
        (flushInline false s.inline_start s.inline_end).1 := by
  refine ⟨?_, ?_, ?_⟩
  · intro a b hsa hse heq
    subst heq
    have hfi : flushInline false s.inline_start s.inline_end =
        ([SideProperty.left a, SideProperty.right a], []) := by
      simp [flushInline, hsa, hse]
    refine ⟨by rw [hfi], ?_, ?_⟩ <;> rw [flush_ctx cfg compat s dest ctx h, hls, hfi] <;> simp
  · intro hne
    have hfi : flushInline false s.inline_start s.inline_end =
        ([], claimInlinePairs s.inline_start s.inline_end) := by
      rcases hsa : s.inline_start with _ | p
      · rcases hse : s.inline_end with _ | q
        · simp [flushInline, claimInlinePairs]
        · cases q <;> simp_all [flushInline, claimInlinePairs]
      · rcases hse : s.inline_end with _ | q
        · cases p <;> simp_all [flushInline, claimInlinePairs]
        · cases p <;> cases q <;> simp_all [flushInline, claimInlinePairs]
          exact fun hh => hne hh.symm
    refine ⟨by rw [hfi], ?_, ?_⟩ <;>
      rw [flush_ctx cfg compat s dest ctx h, hls, hfi]
  · rw [flush_dest cfg compat s dest ctx h, hls]

/-- C2 witness: a concrete legacy-target flush of
`margin-inline-start: 1; margin-inline-end: 2` (unequal values) emits no
inline declaration and defers both slots to (left, right) and
(right, left) logical-rule pairs. -/
theorem c2_witness :
    (flushInline false (some (SideProperty.inlineStart 1) : Option (SideProperty Nat Nat))
        (some (SideProperty.inlineEnd 2))).1 = [] ∧
    (flush MarginHandler.config compatNone
      { SideHandlerState.initial with
        inline_start := some (SideProperty.inlineStart 1)
        inline_end := some (SideProperty.inlineEnd 2)
        has_any := true, category := PropertyCategory.logical } [] ctxStyleRuleTargets).2.2.ltr =
      ctxStyleRuleTargets.ltr ++
        (claimInlinePairs (some (SideProperty.inlineStart 1) : Option (SideProperty Nat Nat))
          (some (SideProperty.inlineEnd 2))).map Prod.fst ∧
    (flush MarginHandler.config compatNone
      { SideHandlerState.initial with
        inline_start := some (SideProperty.inlineStart 1)
        inline_end := some (SideProperty.inlineEnd 2)
        has_any := true, category := PropertyCategory.logical } [] ctxStyleRuleTargets).2.2.rtl =
      ctxStyleRuleTargets.rtl ++
        (claimInlinePairs (some (SideProperty.inlineStart 1) : Option (SideProperty Nat Nat))
          (some (SideProperty.inlineEnd 2))).map Prod.snd := by
  have hne : ¬ ∃ a : Nat,
      (({ SideHandlerState.initial with
          inline_start := some (SideProperty.inlineStart 1)
          inline_end := some (SideProperty.inlineEnd 2)
          has_any := true, category := PropertyCategory.logical } :
        SideHandlerState Nat Nat)).inline_start = some (SideProperty.inlineStart a) ∧
      (({ SideHandlerState.initial with
          inline_start := some (SideProperty.inlineStart 1)
          inline_end := some (SideProperty.inlineEnd 2)
          has_any := true, category := PropertyCategory.logical } :
        SideHandlerState Nat Nat)).inline_end = some (SideProperty.inlineEnd a) := by
    rintro ⟨a, h1, h2⟩
    simp [SideHandlerState.initial] at h1 h2
    omega
  exact (c2_inline_lowering MarginHandler.config compatNone
    { SideHandlerState.initial with
      inline_start := some (SideProperty.inlineStart 1)
      inline_end := some (SideProperty.inlineEnd 2)
      has_any := true, category := PropertyCategory.logical } [] ctxStyleRuleTargets
    rfl (by decide)).2.1 hne

/-- C1 counterexample: under legacy targets a reachable margin
accumulator can hold all four physical slots together with a block-start
slot, because the four-sided shorthand arm neither flushes nor switches
the category (lines 69-80), so a later logical longhand joins the same
run. Its flush then emits the `margin` shorthand and also the
`margin-top` longhand lowered from the block-start slot - a physical
longhand from the very set the claim excludes. The first conjunct shows
the state arises from an accepted input run; the rest exhibits the flush
output against the claim's premises. -/
theorem c1_counterexample :
    (handle_list MarginHandler.config compatNone
      [SideProperty.blockStart 9, SideProperty.shorthand (1, 2, 3, 4),
        SideProperty.blockStart 5]
      SideHandlerState.initial [] ctxStyleRuleTargets).2.1 =
      [SideProperty.shorthand (1, 2, 3, 4), SideProperty.top 5] ∧
    (flush MarginHandler.config compatNone
      { SideHandlerState.initial with
        top := some 1, right := some 2, bottom := some 3, left := some 4
        block_start := some (SideProperty.blockStart 5)
        has_any := true, category := PropertyCategory.logical } [] ctxStyleRuleTargets).2.1 =
      [SideProperty.shorthand (1, 2, 3, 4), SideProperty.top 5] ∧
    MarginHandler.config.logical_shorthand = false ∧
    SideProperty.top 5 ∈
      (flush MarginHandler.config compatNone
        { SideHandlerState.initial with
          top := some 1, right := some 2, bottom := some 3, left := some 4
          block_start := some (SideProperty.blockStart 5)
          has_any := true, category := PropertyCategory.logical } []
        ctxStyleRuleTargets).2.1 := by
  refine ⟨rfl, rfl, rfl, ?_⟩
  decide

/-- C1 (amended): with accumulated state, the flush appends the
physical, block-axis and inline-axis outputs in that order; when
`logical_shorthand_only` is false or logical is supported and all four
physical slots are present, the physical output is exactly the single
four-sided shorthand with component order (top, right, bottom, left) and
contains no physical longhand; otherwise each present physical slot is
emitted as an individual longhand (so the inset handler under targets
lacking `LogicalInset` emits four longhands and never the `inset`
shorthand). The exclusion of physical longhands applies to the physical
output: when logical is unsupported, block-axis slots accumulated in the
same run additionally lower to top/bottom longhands in the block-axis
output of the same flush. -/
theorem c1_physical_flush [DecidableEq V]
    (cfg : SideConfig) (compat : Feature → B → Bool)
    (s : SideHandlerState V W) (dest : List (SideProperty V W))
    (ctx : SideContext B C V W) (h : s.has_any = true) :
    (flush cfg compat s dest ctx).2.1 =
      dest ++
        flushPhysical cfg.logical_shorthand (logicalSupported cfg compat ctx)
          s.top s.bottom s.left s.right ++
        flushBlock (logicalSupported cfg compat ctx) s.block_start s.block_end ++
        (flushInline (logicalSupported cfg compat ctx) s.inline_start s.inline_end).1 ∧
    (∀ t b l r, s.top = some t → s.bottom = some b → s.left = some l → s.right = some r →
      ((!cfg.logical_shorthand || logicalSupported cfg compat ctx) = true →
        (flushPhysical cfg.logical_shorthand (logicalSupported cfg compat ctx)
          s.top s.bottom s.left s.right : List (SideProperty V W)) =
          [SideProperty.shorthand (t, r, b, l)]) ∧
      ((!cfg.logical_shorthand || logicalSupported cfg compat ctx) = false →
        (flushPhysical cfg.logical_shorthand (logicalSupported cfg compat ctx)
          s.top s.bottom s.left s.right : List (SideProperty V W)) =
          [SideProperty.top t, SideProperty.bottom b, SideProperty.left l,
            SideProperty.right r])) ∧
    ((s.top = none ∨ s.bottom = none ∨ s.left = none ∨ s.right = none) →
      (flushPhysical cfg.logical_shorthand (logicalSupported cfg compat ctx)
        s.top s.bottom s.left s.right : List (SideProperty V W)) =
        (s.top.map SideProperty.top).toList ++ (s.bottom.map SideProperty.bottom).toList ++
          (s.left.map SideProperty.left).toList ++ (s.right.map SideProperty.right).toList) := by
  refine ⟨flush_dest cfg compat s dest ctx h, ?_, ?_⟩
  · intro t b l r ht hb hl hr
    constructor <;> intro hcond <;> simp [flushPhysical, ht, hb, hl, hr, hcond]
  · intro hmiss
    cases ht : s.top <;> cases hb : s.bottom <;> cases hl : s.left <;> cases hr : s.right <;>
      simp_all [flushPhysical]

/-- C1 witness: the inset instance under legacy targets with all four
physical slots accumulated emits the four longhands, never the `inset`
shorthand. -/
theorem c1_witness :
    flushPhysical InsetHandler.config.logical_shorthand
      (logicalSupported InsetHandler.config compatNone ctxStyleRuleTargets)
      (some 1) (some 3) (some 4) (some 2) =
      ([SideProperty.top 1, SideProperty.bottom 3, SideProperty.left 4,
        SideProperty.right 2] : List (SideProperty Nat Nat)) :=
  ((c1_physical_flush InsetHandler.config compatNone
    { SideHandlerState.initial with
      top := some 1, bottom := some 3, left := some 4, right := some 2
      has_any := true } [] ctxStyleRuleTargets rfl).2.1 1 3 4 2
    rfl rfl rfl rfl).2 (by decide)

@[simp]
theorem listVals_nil : listVals ([] : List (SideProperty V W)) = [] := rfl

@[simp]
theorem listVals_cons (p : SideProperty V W) (l : List (SideProperty V W)) :
    listVals (p :: l) = p.vals ++ listVals l := rfl

@[simp]
theorem listVals_append (l1 l2 : List (SideProperty V W)) :
    listVals (l1 ++ l2) = listVals l1 ++ listVals l2 := by
  induction l1 with
  | nil => simp
  | cons p rest ih => simp [ih]

@[simp]
theorem listRaws_nil : listRaws ([] : List (SideProperty V W)) = [] := rfl

@[simp]
theorem listRaws_cons (p : SideProperty V W) (l : List (SideProperty V W)) :
    listRaws (p :: l) = p.raws ++ listRaws l := rfl

@[simp]
theorem listRaws_append (l1 l2 : List (SideProperty V W)) :
    listRaws (l1 ++ l2) = listRaws l1 ++ listRaws l2 := by
  induction l1 with
  | nil => simp
  | cons p rest ih => simp [ih]

/-- A property that appears verbatim in a list survives into it. -/
theorem survivesIn_of_mem (p : SideProperty V W) (l : List (SideProperty V W))
    (hp : p ∈ l) : survivesIn p l := by
  constructor <;> intro x hx <;>
  · induction l with
    | nil => simp at hp
    | cons q rest ih =>
      rcases List.mem_cons.mp hp with rfl | hp' <;>
        simp_all [listVals, listRaws, SideProperty.vals, SideProperty.raws]

/-- Every present physical slot's value occurs in the physical flush
output, inside the shorthand or as its own longhand. -/
theorem flushPhysical_complete (lsOnly ls : Bool) (t b l r : Option V) :
    (∀ v, t = some v →
      v ∈ listVals (flushPhysical lsOnly ls t b l r : List (SideProperty V W))) ∧
    (∀ v, b = some v →
      v ∈ listVals (flushPhysical lsOnly ls t b l r : List (SideProperty V W))) ∧
    (∀ v, l = some v →
      v ∈ listVals (flushPhysical lsOnly ls t b l r : List (SideProperty V W))) ∧
    (∀ v, r = some v →
      v ∈ listVals (flushPhysical lsOnly ls t b l r : List (SideProperty V W))) := by
  cases t <;> cases b <;> cases l <;> cases r <;>
    refine ⟨?_, ?_, ?_, ?_⟩ <;> intro v hv <;>
    simp_all [flushPhysical, SideProperty.vals] <;>
    split <;> simp [SideProperty.vals]

/-- Every present, well-formed block-axis slot survives into the
block-axis flush output (as the block shorthand, its own longhand, or
its physical rewrite). -/
theorem flushBlock_complete (ls : Bool) (bs be : Option (SideProperty V W))
    (hwfs : blockStartWF bs = true) (hwfe : blockEndWF be = true) :
    (∀ p, bs = some p → survivesIn p (flushBlock ls bs be)) ∧
    (∀ p, be = some p → survivesIn p (flushBlock ls bs be)) := by
  cases ls with
  | true =>
    constructor
    · intro p hp
      subst hp
      cases p <;> rcases hse : be with _ | q <;> try cases q
      all_goals
        constructor <;> intro x hx <;>
          simp_all [flushBlock, SideProperty.vals, SideProperty.raws] <;> tauto
    · intro p hp
      subst hp
      cases p <;> rcases hsa : bs with _ | q <;> try cases q
      all_goals
        constructor <;> intro x hx <;>
          simp_all [flushBlock, SideProperty.vals, SideProperty.raws] <;> tauto
  | false =>
    constructor
    · intro p hp
      subst hp
      cases p <;> simp_all [blockStartWF] <;>
        constructor <;> intro x hx <;>
        simp_all [flushBlock, SideProperty.vals, SideProperty.raws]
    · intro p hp
      subst hp
      cases p <;> simp_all [blockEndWF] <;>
        constructor <;> intro x hx <;>
        simp_all [flushBlock, SideProperty.vals, SideProperty.raws]

/-- Every present, well-formed inline-axis slot survives into the
inline-axis flush outputs: its payload reaches the destination
declarations or the LTR pair components, and likewise the destination or
the RTL pair components. -/
theorem flushInline_complete [DecidableEq V] (ls : Bool)
    (is' ie' : Option (SideProperty V W))
    (hwfs : inlineStartWF is' = true) (hwfe : inlineEndWF ie' = true) :
    (∀ p, is' = some p →
      survivesIn p ((flushInline ls is' ie').1 ++
        ((flushInline ls is' ie').2).map Prod.fst) ∧
      survivesIn p ((flushInline ls is' ie').1 ++
        ((flushInline ls is' ie').2).map Prod.snd)) ∧
    (∀ p, ie' = some p →
      survivesIn p ((flushInline ls is' ie').1 ++
        ((flushInline ls is' ie').2).map Prod.fst) ∧
      survivesIn p ((flushInline ls is' ie').1 ++
        ((flushInline ls is' ie').2).map Prod.snd)) := by
  constructor
  · intro p hp
    subst hp
    cases ls <;> cases p <;> rcases hse : ie' with _ | q <;> try cases q
    all_goals
      constructor <;> constructor <;> intro x hx <;>
        simp_all [flushInline, inlineStartWF, inlineEndWF,
          SideProperty.vals, SideProperty.raws] <;>
        first
        | tauto
        | (split <;> simp_all [SideProperty.vals, SideProperty.raws] <;> tauto)
  · intro p hp
    subst hp
    cases ls <;> cases p <;> rcases hsa : is' with _ | q <;> try cases q
    all_goals
      constructor <;> constructor <;> intro x hx <;>
        simp_all [flushInline, inlineStartWF, inlineEndWF,
          SideProperty.vals, SideProperty.raws] <;>
        first
        | tauto
        | (split <;> simp_all [SideProperty.vals, SideProperty.raws] <;> tauto)

/-- C4 counterexample: both inputs are accepted (first conjuncts), yet
the value `2` of the accumulated `margin-block-start` declaration
reaches neither the destination nor the logical-rule buffers: the later
four-sided `margin` shorthand clears the logical slots without flushing
them (lines 69-80), so the accepted declaration contributes nothing. -/
theorem c4_counterexample :
    (handle_property MarginHandler.config compatAll (SideProperty.blockStart 2)
      SideHandlerState.initial [] ctxStyleRule).1 = true ∧
    (handle_property MarginHandler.config compatAll (SideProperty.shorthand (1, 1, 1, 1))
      (handle_property MarginHandler.config compatAll (SideProperty.blockStart 2)
        SideHandlerState.initial [] ctxStyleRule).2.1 [] ctxStyleRule).1 = true ∧
    (handle_list MarginHandler.config compatAll
      [SideProperty.blockStart 2, SideProperty.shorthand (1, 1, 1, 1)]
      SideHandlerState.initial [] ctxStyleRule).2.1 =
      [SideProperty.shorthand (1, 1, 1, 1)] ∧
    (2 : Nat) ∉ listVals
      (handle_list MarginHandler.config compatAll
        [SideProperty.blockStart 2, SideProperty.shorthand (1, 1, 1, 1)]
        SideHandlerState.initial [] ctxStyleRule).2.1 ∧
    (handle_list MarginHandler.config compatAll
      [SideProperty.blockStart 2, SideProperty.shorthand (1, 1, 1, 1)]
      SideHandlerState.initial [] ctxStyleRule).2.2 = ctxStyleRule := by
  refine ⟨rfl, rfl, rfl, ?_, rfl⟩
  decide

/-- C4 (amended): nothing present at flush time is lost - the flush
appends the physical, block and inline outputs to `dest` and the inline
pairs to the LTR/RTL buffers, and every present slot's payload survives
into those outputs (inside a shorthand, as a longhand, possibly under
the rewritten physical id, or in the deferred pair components). An
accepted declaration can therefore only disappear by being overwritten
or cleared in the accumulator by a later accepted declaration before the
next flush - in particular, a four-sided shorthand clears previously
accumulated logical slots without flushing them. -/
theorem c4_flush_completeness [DecidableEq V]
    (cfg : SideConfig) (compat : Feature → B → Bool)
    (s : SideHandlerState V W) (dest : List (SideProperty V W))
    (ctx : SideContext B C V W)
    (h : s.has_any = true) (hwf : s.logicalSlotsWF = true) :
    (flush cfg compat s dest ctx).2.1 =
      dest ++
        flushPhysical cfg.logical_shorthand (logicalSupported cfg compat ctx)
          s.top s.bottom s.left s.right ++
        flushBlock (logicalSupported cfg compat ctx) s.block_start s.block_end ++
        (flushInline (logicalSupported cfg compat ctx) s.inline_start s.inline_end).1 ∧
    (flush cfg compat s dest ctx).2.2.ltr =
      ctx.ltr ++
        ((flushInline (logicalSupported cfg compat ctx) s.inline_start s.inline_end).2).map
          Prod.fst ∧
    (flush cfg compat s dest ctx).2.2.rtl =
      ctx.rtl ++
        ((flushInline (logicalSupported cfg compat ctx) s.inline_start s.inline_end).2).map
          Prod.snd ∧
    (∀ v, s.top = some v →
      v ∈ listVals (flushPhysical cfg.logical_shorthand (logicalSupported cfg compat ctx)
        s.top s.bottom s.left s.right : List (SideProperty V W))) ∧
    (∀ v, s.bottom = some v →
      v ∈ listVals (flushPhysical cfg.logical_shorthand (logicalSupported cfg compat ctx)
        s.top s.bottom s.left s.right : List (SideProperty V W))) ∧
    (∀ v, s.left = some v →
      v ∈ listVals (flushPhysical cfg.logical_shorthand (logicalSupported cfg compat ctx)
        s.top s.bottom s.left s.right : List (SideProperty V W))) ∧
    (∀ v, s.right = some v →
      v ∈ listVals (flushPhysical cfg.logical_shorthand (logicalSupported cfg compat ctx)
        s.top s.bottom s.left s.right : List (SideProperty V W))) ∧
    (∀ p, s.block_start = some p →
      survivesIn p (flushBlock (logicalSupported cfg compat ctx)
        s.block_start s.block_end)) ∧
    (∀ p, s.block_end = some p →
      survivesIn p (flushBlock (logicalSupported cfg compat ctx)
        s.block_start s.block_end)) ∧
    (∀ p, s.inline_start = some p →
      survivesIn p ((flushInline (logicalSupported cfg compat ctx)
          s.inline_start s.inline_end).1 ++
        ((flushInline (logicalSupported cfg compat ctx)
          s.inline_start s.inline_end).2).map Prod.fst) ∧
      survivesIn p ((flushInline (logicalSupported cfg compat ctx)
          s.inline_start s.inline_end).1 ++
        ((flushInline (logicalSupported cfg compat ctx)
          s.inline_start s.inline_end).2).map Prod.snd)) ∧
    (∀ p, s.inline_end = some p →
      survivesIn p ((flushInline (logicalSupported cfg compat ctx)
          s.inline_start s.inline_end).1 ++
        ((flushInline (logicalSupported cfg compat ctx)
          s.inline_start s.inline_end).2).map Prod.fst) ∧
      survivesIn p ((flushInline (logicalSupported cfg compat ctx)
          s.inline_start s.inline_end).1 ++
        ((flushInline (logicalSupported cfg compat ctx)
          s.inline_start s.inline_end).2).map Prod.snd)) := by
  simp only [SideHandlerState.logicalSlotsWF, Bool.and_eq_true] at hwf
  obtain ⟨⟨⟨hw1, hw2⟩, hw3⟩, hw4⟩ := hwf
  refine ⟨flush_dest cfg compat s dest ctx h, ?_, ?_, ?_, ?_, ?_, ?_, ?_, ?_, ?_, ?_⟩
  · rw [flush_ctx cfg compat s dest ctx h]
  · rw [flush_ctx cfg compat s dest ctx h]
  · exact (flushPhysical_complete cfg.logical_shorthand
      (logicalSupported cfg compat ctx) s.top s.bottom s.left s.right).1
  · exact (flushPhysical_complete cfg.logical_shorthand
      (logicalSupported cfg compat ctx) s.top s.bottom s.left s.right).2.1
  · exact (flushPhysical_complete cfg.logical_shorthand
      (logicalSupported cfg compat ctx) s.top s.bottom s.left s.right).2.2.1
  · exact (flushPhysical_complete cfg.logical_shorthand
      (logicalSupported cfg compat ctx) s.top s.bottom s.left s.right).2.2.2
  · exact (flushBlock_complete (logicalSupported cfg compat ctx)
      s.block_start s.block_end hw1 hw2).1
  · exact (flushBlock_complete (logicalSupported cfg compat ctx)
      s.block_start s.block_end hw1 hw2).2
  · exact (flushInline_complete (logicalSupported cfg compat ctx)
      s.inline_start s.inline_end hw3 hw4).1
  · exact (flushInline_complete (logicalSupported cfg compat ctx)
      s.inline_start s.inline_end hw3 hw4).2

/-- C4 witness: in a concrete legacy-target flush, the payload of an
accumulated `margin-block-start: 2` slot survives into the block-axis
output (as its physical rewrite `margin-top: 2`). -/
theorem c4_witness :
    survivesIn (SideProperty.blockStart 2 : SideProperty Nat Nat)
      (flushBlock
        (logicalSupported MarginHandler.config compatNone ctxStyleRuleTargets)
        (some (SideProperty.blockStart 2)) none) :=
  (c4_flush_completeness MarginHandler.config compatNone
    { SideHandlerState.initial with
      top := some 1, block_start := some (SideProperty.blockStart 2)
      has_any := true, category := PropertyCategory.logical } [] ctxStyleRuleTargets
    rfl (by decide)).2.2.2.2.2.2.2.1 (SideProperty.blockStart 2) rfl
